import Mathlib

/-!
Shallow embedding of the Topcoder Resources API core services
(resource service, resource-role-phase dependency service, role service)
over a relational store with four tables: Role, Phase, Resource, ResourcePhase.

Sources embedded:
- `resource-dependency-service (1).js`: `ensureRolePhasesDependency`,
  `createResourcePhases`.
- `resource-service (1).js`: `validateResource`, `buildDBResource`,
  `createResource`, `updateResource`.
- `implementation-guide.md` (RoleService): `createRole`, `getRole`, `deleteRole`.
- the Prisma schema embedded in `updated-readme.md` (models `Resource`,
  `Role`, `Phase`, `ResourcePhase`): it declares the Data Store constraints
  behind the `db*` primitives below.  (A second, older schema variant appears
  in `resource-role-repository.js` with models `Resource`+`deleted` flag,
  `ResourceRole`, `ResourceRolePhaseDependency`; the services embedded here
  call `prisma.role` / `prisma.phase` / `prisma.resource` /
  `prisma.resourcePhase`, which are the models of the `updated-readme.md`
  schema, so that schema governs.)

Modelling conventions:
- The Prisma client is replaced by a pure `Store` value threaded through each
  operation; every service operation returns `Except Err α × Store`.
- JavaScript `undefined`/`null`/value distinctions are kept where the source
  depends on them: fields of a create input are `Option String` (absent-or-null
  versus value), fields of an update patch are `Option (Option String)`
  (outer `none` = key absent / `undefined`, `some none` = explicit `null`,
  `some (some v)` = value).  JavaScript truthiness (`undefined`, `null` and
  the empty string are falsy) is modelled by `jsTruthy` / `jsTruthy2`.
- `created` / `updated` timestamp fields are omitted: no claim concerns them,
  and the spec's round-trip property explicitly excludes them.
- Audit fields of `ResourcePhase` rows (`createdBy` / `updatedBy`) are omitted
  for the same reason; a row is its generated id plus the (resourceId, phaseId)
  pair.
- `helper.generateUUID()` is modelled by explicit id arguments (`newId` for a
  single id, `g : Nat → String` for the per-row ids of a batch insert).
- Joi string-format checks (uuid shape, date shape) are abstracted away: every
  Joi failure surfaces as the same `ValidationError`, and no claim depends on
  the uuid format itself.  Joi's required/empty/null handling is kept:
  a required string must be present and non-empty, an optional nullable string
  may be absent or null but not empty.
- The error classes of `common/errors` become the constructors of `Err`.
  `Err.storeConstraint` stands for a raw Prisma/PostgreSQL constraint
  violation that the service code does not catch and translate (the services
  under test install no such translation layer).
-/

namespace ResourcesApi

instance {ε α : Type} [DecidableEq ε] [DecidableEq α] : DecidableEq (Except ε α) := fun x y =>
  match x, y with
  | .error a, .error b =>
    if h : a = b then .isTrue (by rw [h])
    else .isFalse (by intro hc; cases hc; exact h rfl)
  | .error _, .ok _ => .isFalse (by intro hc; cases hc)
  | .ok _, .error _ => .isFalse (by intro hc; cases hc)
  | .ok a, .ok b =>
    if h : a = b then .isTrue (by rw [h])
    else .isFalse (by intro hc; cases hc; exact h rfl)

/-- Error taxonomy of `common/errors`, plus `storeConstraint` for an
untranslated storage-level constraint violation. -/
inductive Err where
  | validation
  | badRequest
  | notFound
  | conflict
  | storeConstraint
deriving DecidableEq

/-- Role row.  Timestamps omitted (see module docstring). -/
structure Role where
  id : String
  name : String
  fullAccess : Bool := false
  selfObtainable : Bool := false
  createdBy : String
  updatedBy : Option String := none
  legacyId : Option String := none
deriving DecidableEq

/-- Phase row. -/
structure Phase where
  id : String
  name : String
  description : Option String := none
deriving DecidableEq

/-- Resource row.  Timestamps omitted. -/
structure Resource where
  id : String
  challengeId : Option String := none
  memberId : Option String := none
  memberHandle : Option String := none
  roleId : String
  createdBy : String
  updatedBy : Option String := none
  legacyId : Option String := none
deriving DecidableEq

/-- ResourcePhase join row.  Audit fields omitted. -/
structure ResourcePhase where
  id : String
  resourceId : String
  phaseId : String
deriving DecidableEq

/-- The relational store: the four tables. -/
structure Store where
  roles : List Role := []
  phases : List Phase := []
  resources : List Resource := []
  resourcePhases : List ResourcePhase := []
deriving DecidableEq

/-- JavaScript truthiness of a nullable string: `undefined`, `null` and `""`
are falsy. -/
def jsTruthy : Option String → Bool
  | some v => v != ""
  | none => false

/-- JavaScript truthiness of a patch field (`undefined` / `null` / value). -/
def jsTruthy2 : Option (Option String) → Bool
  | some (some v) => v != ""
  | _ => false

/-- The value carried by a truthy patch field. -/
def patchVal : Option (Option String) → Option String
  | some (some v) => some v
  | _ => none

/-- JavaScript `data.x || existing.x` for a patch field against a stored
nullable value. -/
def jsOr2 (p : Option (Option String)) (e : Option String) : Option String :=
  if jsTruthy2 p then patchVal p else e

def rolesHave (s : Store) (id : String) : Bool :=
  s.roles.any (fun r => r.id == id)

def phasesHave (s : Store) (id : String) : Bool :=
  s.phases.any (fun p => p.id == id)

def resourcesHave (s : Store) (id : String) : Bool :=
  s.resources.any (fun r => r.id == id)

/-- `prisma.resource.create` under the schema embedded in
`updated-readme.md`: model `Resource` declares `id @id` (unique primary key)
and the relation `role Role @relation(fields: [roleId], references: [id])`
(foreign key from `roleId` to Role).  `challengeId` and `memberId` carry only
non-unique `@@index` entries — the schema declares NO uniqueness over the
(roleId, challengeId, memberId) triple.  A constraint violation surfaces as
a raw store error, not as one of the typed service errors, because the
services install no translation layer. -/
def dbResourceCreate (s : Store) (r : Resource) : Except Err Store :=
  if resourcesHave s r.id then .error .storeConstraint
  else if !(rolesHave s r.roleId) then .error .storeConstraint
  else .ok { s with resources := s.resources ++ [r] }

/-- Constraint check of one candidate ResourcePhase row against the store:
foreign keys to Resource and Phase, unique id, and the composite-unique
(resourceId, phaseId) pair. -/
def rpRowOk (s : Store) (row : ResourcePhase) : Bool :=
  resourcesHave s row.resourceId && phasesHave s row.phaseId &&
    !(s.resourcePhases.any (fun e =>
      e.id == row.id || (e.resourceId == row.resourceId && e.phaseId == row.phaseId)))

/-- Constraint check of a whole `createMany` batch: every row passes
`rpRowOk` and the batch is internally free of duplicate ids and duplicate
(resourceId, phaseId) pairs. -/
def rpBatchOk (s : Store) : List ResourcePhase → Bool
  | [] => true
  | row :: rest =>
    rpRowOk s row &&
      !(rest.any (fun e =>
        e.id == row.id || (e.resourceId == row.resourceId && e.phaseId == row.phaseId))) &&
      rpBatchOk s rest

/-- `prisma.resourcePhase.createMany` under the `updated-readme.md` schema:
model `ResourcePhase` declares `id @id`, `@@unique([resourceId, phaseId])`,
and foreign keys to both `Resource` (`onDelete: Cascade`) and `Phase`.  A
multi-row INSERT is one statement: the whole batch commits or the whole
statement fails. -/
def dbResourcePhaseCreateMany (s : Store) (rows : List ResourcePhase) : Except Err Store :=
  if rpBatchOk s rows then .ok { s with resourcePhases := s.resourcePhases ++ rows }
  else .error .storeConstraint

/-- `resourcePhase.deleteMany({ where: { resourceId } })`. -/
def dbResourcePhaseDeleteMany (s : Store) (resourceId : String) : Store :=
  { s with resourcePhases := s.resourcePhases.filter (fun rp => rp.resourceId != resourceId) }

/-- `prisma.resource.update({ where: { id } })` under the `updated-readme.md`
schema: fails if the id resolves to no row, keeps the `roleId` foreign key to
Role.  As in `dbResourceCreate`, the `Resource` model carries no uniqueness
constraint over (roleId, challengeId, memberId) — only non-unique
`@@index([challengeId])` and `@@index([memberId])` — so no store constraint
guards the triple on writes. -/
def dbResourceUpdate (s : Store) (id : String) (r : Resource) : Except Err Store :=
  if !(resourcesHave s id) then .error .storeConstraint
  else if !(rolesHave s r.roleId) then .error .storeConstraint
  else .ok { s with resources := s.resources.map (fun x => if x.id == id then r else x) }

/-- `prisma.role.create` under the `updated-readme.md` schema: model `Role`
declares `id @id` and `name @unique`. -/
def dbRoleCreate (s : Store) (r : Role) : Except Err Store :=
  if s.roles.any (fun x => x.id == r.id || x.name == r.name) then .error .storeConstraint
  else .ok { s with roles := s.roles ++ [r] }

/-- `role.delete({ where: { id } })`. -/
def dbRoleDelete (s : Store) (id : String) : Store :=
  { s with roles := s.roles.filter (fun r => r.id != id) }

/-- Prisma interactive transaction: the callback runs against the store; if it
throws, every write inside it is rolled back and the pre-call store is the
one observable afterwards. -/
def withTransaction (s : Store) (body : Store → Except Err (α × Store)) :
    Except Err α × Store :=
  match body s with
  | .ok (a, s2) => (.ok a, s2)
  | .error e => (.error e, s)

/-- The `for (const phaseId of phaseIds)` lookup loop shared by the dependency
service: finds every phase or fails with `NotFoundError` at the first miss. -/
def findPhases (s : Store) : List String → Except Err (List Phase)
  | [] => .ok []
  | pid :: rest =>
    match s.phases.find? (fun p => p.id == pid) with
    | none => .error .notFound
    | some ph =>
      match findPhases s rest with
      | .ok phs => .ok (ph :: phs)
      | .error e => .error e

/-- `ensureRolePhasesDependency(roleId, phaseIds)` from
`resource-dependency-service (1).js`: returns immediately when `phaseIds` is
absent or empty; otherwise checks that the role exists and that every phase
exists. -/
def ensureRolePhasesDependency (s : Store) (roleId : String)
    (phaseIds : Option (List String)) : Except Err Unit :=
  match phaseIds with
  | none => .ok ()
  | some [] => .ok ()
  | some l =>
    match s.roles.find? (fun r => r.id == roleId) with
    | none => .error .notFound
    | some _ =>
      match findPhases s l with
      | .ok _ => .ok ()
      | .error e => .error e

/-- Batch of ResourcePhase rows built from a phase id list, one generated id
per row (`phaseIds.map` plus `helper.generateUUID()` in the source). -/
def mkResourcePhaseRows (resourceId : String) (g : Nat → String) :
    List String → Nat → List ResourcePhase
  | [], _ => []
  | pid :: rest, i =>
    { id := g i, resourceId := resourceId, phaseId := pid } ::
      mkResourcePhaseRows resourceId g rest (i + 1)

/-- `createResourcePhases(resourceId, phaseIds, userId)` from
`resource-dependency-service (1).js`.  The `userId` argument only feeds the
omitted audit fields. -/
def createResourcePhases (s : Store) (resourceId : String)
    (phaseIds : Option (List String)) (userId : String) (g : Nat → String) :
    Except Err (List Phase) × Store :=
  match phaseIds with
  | none => (.ok [], s)
  | some [] => (.ok [], s)
  | some l =>
    match s.resources.find? (fun r => r.id == resourceId) with
    | none => (.error .notFound, s)
    | some resource =>
      match findPhases s l with
      | .error e => (.error e, s)
      | .ok phases =>
        let existing := s.resourcePhases.filter
          (fun rp => rp.resourceId == resourceId && l.contains rp.phaseId)
        if existing.length > 0 then (.error .conflict, s)
        else
          match ensureRolePhasesDependency s resource.roleId (some l) with
          | .error e => (.error e, s)
          | .ok _ =>
            match dbResourcePhaseCreateMany s (mkResourcePhaseRows resourceId g l 0) with
            | .error e => (.error e, s)
            | .ok s2 => (.ok phases, s2)

/-- Create-call input shape of the resource service (`resource` argument of
`createResource`).  Every field is optional at the call boundary; validation
decides which must be present.  The unused `userId` audit data is dropped. -/
structure ResourceInput where
  id : Option String := none
  challengeId : Option String := none
  memberId : Option String := none
  memberHandle : Option String := none
  roleId : Option String := none
  createdBy : Option String := none
  updatedBy : Option String := none
  legacyId : Option String := none
  phases : Option (List String) := none
deriving DecidableEq

/-- Joi `string().required()`: present and non-empty. -/
def joiRequiredString (o : Option String) : Bool :=
  jsTruthy o

/-- Joi `string().allow(null)`: absent or null is fine, the empty string is
rejected. -/
def joiOptionalString (o : Option String) : Bool :=
  o != some ""

/-- `validateResource(resource)` from `resource-service (1).js`: the Joi
schema (required `roleId` and `createdBy`, optional nullable strings), then
the explicit either-`challengeId`-or-`memberId` check.  Every failure is the
same `ValidationError`; uuid/date format checks are abstracted away. -/
def validateResource (r : ResourceInput) : Except Err Unit :=
  if !(joiRequiredString r.roleId) then .error .validation
  else if !(joiRequiredString r.createdBy) then .error .validation
  else if !(joiOptionalString r.id && joiOptionalString r.challengeId &&
      joiOptionalString r.memberId && joiOptionalString r.memberHandle &&
      joiOptionalString r.updatedBy && joiOptionalString r.legacyId) then
    .error .validation
  else if !(jsTruthy r.challengeId) && !(jsTruthy r.memberId) then .error .validation
  else .ok ()

/-- `buildDBResource(resource)`: the DB row shape (timestamps omitted). -/
def buildDBResource (r : ResourceInput) : Resource :=
  { id := r.id.getD ""
    challengeId := r.challengeId
    memberId := r.memberId
    memberHandle := r.memberHandle
    roleId := r.roleId.getD ""
    createdBy := r.createdBy.getD ""
    updatedBy := r.updatedBy
    legacyId := r.legacyId }

/-- Transaction callback of `createResource`: create the Resource row, then
`createMany` the ResourcePhase rows when a non-empty phase list was supplied.
The source's closing `findUnique`+`transformResource` re-read of the created
row is collapsed into returning the row itself; no claim concerns the
response shape. -/
def createResourceTxBody (dbRes : Resource) (phaseIds : List String)
    (g : Nat → String) (tx : Store) : Except Err (Resource × Store) :=
  match dbResourceCreate tx dbRes with
  | .error e => .error e
  | .ok tx1 =>
    if phaseIds.length > 0 then
      match dbResourcePhaseCreateMany tx1 (mkResourcePhaseRows dbRes.id g phaseIds 0) with
      | .error e => .error e
      | .ok tx2 => .ok (dbRes, tx2)
    else .ok (dbRes, tx1)

/-- `createResource(resource)` from `resource-service (1).js`: validation,
role-existence check (`BadRequestError`), truthiness-guarded duplicate-triple
check (`ConflictError`), then a transaction creating the Resource row and its
ResourcePhase rows. -/
def createResource (s : Store) (inp : ResourceInput) (newId : String)
    (g : Nat → String) : Except Err Resource × Store :=
  match validateResource inp with
  | .error e => (.error e, s)
  | .ok _ =>
    match s.roles.find? (fun r => r.id == inp.roleId.getD "") with
    | none => (.error .badRequest, s)
    | some _ =>
      let dupMatch := fun (r : Resource) =>
        r.roleId == inp.roleId.getD "" &&
          (!(jsTruthy inp.challengeId) || r.challengeId == inp.challengeId) &&
          (!(jsTruthy inp.memberId) || r.memberId == inp.memberId)
      match s.resources.find? dupMatch with
      | some _ => (.error .conflict, s)
      | none =>
        let phaseIds := inp.phases.getD []
        let d0 := buildDBResource inp
        let dbRes := if d0.id == "" then { d0 with id := newId } else d0
        withTransaction s (createResourceTxBody dbRes phaseIds g)

/-- Update-call patch shape of the resource service (`data` argument of
`updateResource`): each scalar field is absent, explicitly null, or a value. -/
structure ResourcePatch where
  challengeId : Option (Option String) := none
  memberId : Option (Option String) := none
  memberHandle : Option (Option String) := none
  roleId : Option (Option String) := none
  updatedBy : Option (Option String) := none
  legacyId : Option (Option String) := none
  phases : Option (List String) := none
deriving DecidableEq

/-- Transaction callback of `updateResource`: update the Resource row, and
when a non-empty phase list was supplied, delete all existing ResourcePhase
rows of the resource and recreate the requested set. -/
def updateResourceTxBody (id : String) (updatedRes : Resource)
    (phaseIds : List String) (g : Nat → String) (tx : Store) :
    Except Err (Resource × Store) :=
  match dbResourceUpdate tx id updatedRes with
  | .error e => .error e
  | .ok tx1 =>
    if phaseIds.length > 0 then
      match dbResourcePhaseCreateMany (dbResourcePhaseDeleteMany tx1 id)
          (mkResourcePhaseRows id g phaseIds 0) with
      | .error e => .error e
      | .ok tx3 => .ok (updatedRes, tx3)
    else .ok (updatedRes, tx1)

/-- `updateResource(id, data)` from `resource-service (1).js`: existence
check, truthiness-guarded role check, truthiness-guarded duplicate check
(`if (data.challengeId || data.memberId || data.roleId)` with
`data.x || existingResource.x` fallbacks), `_.isUndefined`-based field merge,
then the transaction. -/
def updateResource (s : Store) (id : String) (data : ResourcePatch)
    (g : Nat → String) : Except Err Resource × Store :=
  match s.resources.find? (fun r => r.id == id) with
  | none => (.error .notFound, s)
  | some existing =>
    if jsTruthy2 data.roleId && !(rolesHave s ((patchVal data.roleId).getD "")) then
      (.error .badRequest, s)
    else
      let condRoleId := if jsTruthy2 data.roleId then (patchVal data.roleId).getD ""
        else existing.roleId
      let condCh := jsOr2 data.challengeId existing.challengeId
      let condMem := jsOr2 data.memberId existing.memberId
      let dupMatch := fun (r : Resource) =>
        r.id != id && r.roleId == condRoleId &&
          (!(jsTruthy condCh) || r.challengeId == condCh) &&
          (!(jsTruthy condMem) || r.memberId == condMem)
      if (jsTruthy2 data.challengeId || jsTruthy2 data.memberId || jsTruthy2 data.roleId) &&
          s.resources.any dupMatch then (.error .conflict, s)
      else
        let phaseIds := data.phases.getD []
        let updatedRes : Resource :=
          { id := existing.id
            challengeId :=
              match data.challengeId with
              | none => existing.challengeId
              | some v => v
            memberId :=
              match data.memberId with
              | none => existing.memberId
              | some v => v
            memberHandle :=
              match data.memberHandle with
              | none => existing.memberHandle
              | some v => v
            roleId := condRoleId
            createdBy := existing.createdBy
            updatedBy := jsOr2 data.updatedBy existing.updatedBy
            legacyId :=
              match data.legacyId with
              | none => existing.legacyId
              | some v => v }
        withTransaction s (updateResourceTxBody id updatedRes phaseIds g)

/-- Create-call input shape of the RoleService in `implementation-guide.md`. -/
structure RoleInput where
  name : String
  fullAccess : Option Bool := none
  selfObtainable : Option Bool := none
  createdBy : String
  updatedBy : Option String := none
  legacyId : Option String := none
deriving DecidableEq

/-- Role row persisted by `createRole` (the `data` literal passed to
`prisma.role.create`): id, name, `fullAccess || false`,
`selfObtainable || false`, createdBy, updatedBy.  `legacyId` is not part of
the persisted data, so the stored row always carries a null `legacyId`. -/
def buildRole (d : RoleInput) (newId : String) : Role :=
  { id := newId
    name := d.name
    fullAccess := d.fullAccess.getD false
    selfObtainable := d.selfObtainable.getD false
    createdBy := d.createdBy
    updatedBy := d.updatedBy
    legacyId := none }

/-- `createRole(data)` from the RoleService of `implementation-guide.md`. -/
def createRole (s : Store) (d : RoleInput) (newId : String) :
    Except Err Role × Store :=
  match dbRoleCreate s (buildRole d newId) with
  | .error e => (.error e, s)
  | .ok s2 => (.ok (buildRole d newId), s2)

/-- `getRole(id)` from the RoleService of `implementation-guide.md`. -/
def getRole (s : Store) (id : String) : Except Err Role :=
  match s.roles.find? (fun r => r.id == id) with
  | none => .error .notFound
  | some r => .ok r

/-- `deleteRole(id)` from the RoleService of `implementation-guide.md`:
existence check via `getRole`, then `resource.count({ where: { roleId } })`,
`ConflictError` when positive, otherwise the row is removed. -/
def deleteRole (s : Store) (id : String) : Except Err Unit × Store :=
  match getRole s id with
  | .error e => (.error e, s)
  | .ok _ =>
    let resourceCount := (s.resources.filter (fun r => r.roleId == id)).length
    if resourceCount > 0 then (.error .conflict, s)
    else (.ok (), dbRoleDelete s id)

/-- The spec's §3 uniqueness invariant: no two distinct resources agree on
the whole (roleId, challengeId, memberId) triple.  In this source variant a
Resource row has no `deleted` flag, so every row counts as non-deleted. -/
def uniqueTriple (s : Store) : Prop :=
  ∀ r1 ∈ s.resources, ∀ r2 ∈ s.resources,
    r1.id ≠ r2.id →
      (r1.roleId, r1.challengeId, r1.memberId) ≠ (r2.roleId, r2.challengeId, r2.memberId)

instance (s : Store) : Decidable (uniqueTriple s) := by
  unfold uniqueTriple
  infer_instance

/-- Deterministic stand-in for the per-row uuid generator in concrete runs. -/
def exIdGen : Nat → String := fun n => if n == 0 then "rpX" else "rpY"

/-- A store with one role and two resources whose triples differ only in a
null versus non-null `challengeId`. -/
def exStorePair : Store :=
  { roles := [{ id := "r1", name := "Reviewer", createdBy := "u" }]
    phases := []
    resources :=
      [ { id := "a", challengeId := some "c1", memberId := some "m1", roleId := "r1",
          createdBy := "u" }
      , { id := "b", challengeId := none, memberId := some "m1", roleId := "r1",
          createdBy := "u" } ]
    resourcePhases := [] }

/-- A store with one role and no phases. -/
def exStoreRoleOnly : Store :=
  { roles := [{ id := "r1", name := "Reviewer", createdBy := "u" }] }

/-- A create input naming a phase id that does not exist in `exStoreRoleOnly`. -/
def exInputMissingPhase : ResourceInput :=
  { roleId := some "r1", createdBy := some "u", challengeId := some "c1",
    phases := some ["p1"] }

/-- A store with one role, two phases, one resource and one attached phase. -/
def exStoreAttached : Store :=
  { roles := [{ id := "r1", name := "Reviewer", createdBy := "u" }]
    phases := [{ id := "pA", name := "A" }, { id := "pB", name := "B" }]
    resources := [{ id := "res1", challengeId := some "c1", roleId := "r1", createdBy := "u" }]
    resourcePhases := [{ id := "j1", resourceId := "res1", phaseId := "pA" }] }

/-- A store whose single resource references the single role. -/
def exStoreReferenced : Store :=
  { roles := [{ id := "r1", name := "Reviewer", createdBy := "u" }]
    resources := [{ id := "res1", challengeId := some "c1", roleId := "r1", createdBy := "u" }] }

/-- A role create input carrying a legacy id. -/
def exRoleInputLegacy : RoleInput :=
  { name := "Reviewer", fullAccess := some true, selfObtainable := some false,
    createdBy := "u1", legacyId := some "42" }

section Lemmas

open List

theorem exists_find?_of_mem {α : Type} {p : α → Bool} {l : List α} {x : α}
    (hx : x ∈ l) (hp : p x = true) : ∃ y, l.find? p = some y := by
  cases h : l.find? p with
  | some y => exact ⟨y, rfl⟩
  | none => exact absurd hp (List.find?_eq_none.mp h x hx)

theorem find?_append_last {α : Type} {p : α → Bool} {l : List α} {a : α}
    (hl : ∀ x ∈ l, p x = false) (ha : p a = true) :
    (l ++ [a]).find? p = some a := by
  induction l with
  | nil => simp [List.find?, ha]
  | cons hd tl ih =>
    have hhd : p hd = false := hl hd (by simp)
    simp only [List.cons_append, List.find?, hhd]
    exact ih (fun x hx => hl x (by simp [hx]))

theorem findPhases_ok {s : Store} {l : List String}
    (h : ∀ pid ∈ l, ∃ p ∈ s.phases, p.id = pid) :
    ∃ phs, findPhases s l = .ok phs := by
  induction l with
  | nil => exact ⟨[], rfl⟩
  | cons hd tl ih =>
    obtain ⟨p, hp, hpid⟩ := h hd (by simp)
    obtain ⟨y, hy⟩ :=
      @exists_find?_of_mem Phase (fun q => q.id == hd) s.phases p hp (by simp [hpid])
    obtain ⟨phs, hphs⟩ := ih (fun pid hpid => h pid (by simp [hpid]))
    exact ⟨y :: phs, by simp [findPhases, hy, hphs]⟩

theorem mem_mkResourcePhaseRows (rid : String) (g : Nat → String) {l : List String}
    {pid : String} (h : pid ∈ l) (i : Nat) :
    ∃ rp ∈ mkResourcePhaseRows rid g l i, rp.resourceId = rid ∧ rp.phaseId = pid := by
  induction l generalizing i with
  | nil => cases h
  | cons hd tl ih =>
    rcases List.mem_cons.mp h with heq | hmem
    · exact ⟨{ id := g i, resourceId := rid, phaseId := hd },
        by simp [mkResourcePhaseRows], rfl, heq.symm⟩
    · obtain ⟨rp, hrp, h1, h2⟩ := ih hmem (i + 1)
      exact ⟨rp, by simp [mkResourcePhaseRows, hrp], h1, h2⟩

theorem dbResourceCreate_ok {s : Store} {r : Resource} {s2 : Store}
    (h : dbResourceCreate s r = .ok s2) :
    s2.roles = s.roles ∧ s2.phases = s.phases ∧
      s2.resources = s.resources ++ [r] ∧ s2.resourcePhases = s.resourcePhases := by
  unfold dbResourceCreate at h
  split at h
  · cases h
  · split at h
    · cases h
    · cases h
      exact ⟨rfl, rfl, rfl, rfl⟩

theorem dbResourcePhaseCreateMany_ok {s : Store} {rows : List ResourcePhase} {s2 : Store}
    (h : dbResourcePhaseCreateMany s rows = .ok s2) :
    rpBatchOk s rows = true ∧ s2.roles = s.roles ∧ s2.phases = s.phases ∧
      s2.resources = s.resources ∧ s2.resourcePhases = s.resourcePhases ++ rows := by
  unfold dbResourcePhaseCreateMany at h
  split at h
  · cases h
    rename_i hok
    exact ⟨hok, rfl, rfl, rfl, rfl⟩
  · cases h

theorem rpBatchOk_all {s : Store} {rows : List ResourcePhase}
    (h : rpBatchOk s rows = true) : ∀ row ∈ rows, rpRowOk s row = true := by
  induction rows with
  | nil => intro row hrow; cases hrow
  | cons hd tl ih =>
    unfold rpBatchOk at h
    simp only [Bool.and_eq_true] at h
    intro row hrow
    rcases List.mem_cons.mp hrow with heq | hmem
    · rw [heq]; exact h.1.1
    · exact ih h.2 row hmem

theorem createResourceTxBody_ok {dbRes : Resource} {phaseIds : List String}
    {g : Nat → String} {tx : Store} {res : Resource} {s2 : Store}
    (h : createResourceTxBody dbRes phaseIds g tx = .ok (res, s2)) :
    res ∈ s2.resources ∧
      (∀ pid ∈ phaseIds,
        ∃ rp ∈ s2.resourcePhases, rp.resourceId = res.id ∧ rp.phaseId = pid) ∧
      (∀ pid ∈ phaseIds, phasesHave tx pid = true) := by
  unfold createResourceTxBody at h
  split at h
  · cases h
  · rename_i tx1 hc
    obtain ⟨h1ro, h1ph, h1res, h1rp⟩ := dbResourceCreate_ok hc
    split at h
    · rename_i hlen
      split at h
      · cases h
      · rename_i tx2 hm
        simp only [Except.ok.injEq, Prod.mk.injEq] at h
        obtain ⟨hres, hs2⟩ := h
        subst hres; subst hs2
        obtain ⟨hbatch, h2ro, h2ph, h2res, h2rp⟩ := dbResourcePhaseCreateMany_ok hm
        refine ⟨?_, ?_, ?_⟩
        · rw [h2res, h1res]; simp
        · intro pid hpid
          obtain ⟨rp, hrpmem, hrid, hpid2⟩ := mem_mkResourcePhaseRows dbRes.id g hpid 0
          exact ⟨rp, by rw [h2rp]; simp [hrpmem], hrid, hpid2⟩
        · intro pid hpid
          obtain ⟨rp, hrpmem, hrid, hpid2⟩ := mem_mkResourcePhaseRows dbRes.id g hpid 0
          have hok := rpBatchOk_all hbatch rp hrpmem
          unfold rpRowOk at hok
          simp only [Bool.and_eq_true] at hok
          have hph := hok.1.2
          unfold phasesHave at hph ⊢
          rw [h1ph, hpid2] at hph
          exact hph
    · rename_i hlen
      simp only [Except.ok.injEq, Prod.mk.injEq] at h
      obtain ⟨hres, hs2⟩ := h
      subst hres; subst hs2
      have hnil : phaseIds = [] := List.length_eq_zero.mp (Nat.eq_zero_of_not_pos hlen)
      subst hnil
      refine ⟨?_, ?_, ?_⟩
      · rw [h1res]; simp
      · intro pid hpid; cases hpid
      · intro pid hpid; cases hpid

theorem createResource_spec (s : Store) (inp : ResourceInput) (newId : String)
    (g : Nat → String) :
    (∃ e, createResource s inp newId g = (.error e, s)) ∨
    ∃ res s2, createResource s inp newId g = (.ok res, s2) ∧
      res ∈ s2.resources ∧
      (∀ pid ∈ inp.phases.getD [],
        ∃ rp ∈ s2.resourcePhases, rp.resourceId = res.id ∧ rp.phaseId = pid) ∧
      (∀ pid ∈ inp.phases.getD [], phasesHave s pid = true) := by
  simp only [createResource, withTransaction]
  split
  · exact .inl ⟨_, rfl⟩
  · split
    · exact .inl ⟨_, rfl⟩
    · split
      · exact .inl ⟨_, rfl⟩
      · split
        · rename_i a s2 heq
          obtain ⟨hmem, hrows, hph⟩ := createResourceTxBody_ok heq
          exact .inr ⟨a, s2, rfl, hmem, hrows, hph⟩
        · exact .inl ⟨_, rfl⟩

theorem validateResource_cases (inp : ResourceInput) :
    validateResource inp = .ok () ∨ validateResource inp = .error .validation := by
  unfold validateResource
  split
  · exact .inr rfl
  · split
    · exact .inr rfl
    · split
      · exact .inr rfl
      · split
        · exact .inr rfl
        · exact .inl rfl

theorem validateResource_ok_truthy {inp : ResourceInput}
    (h : validateResource inp = .ok ()) :
    joiRequiredString inp.roleId = true ∧ joiRequiredString inp.createdBy = true ∧
      (jsTruthy inp.challengeId = true ∨ jsTruthy inp.memberId = true) := by
  unfold validateResource at h
  split at h
  · cases h
  · split at h
    · cases h
    · split at h
      · cases h
      · split at h
        · cases h
        · rename_i h1 h2 h3 h4
          simp only [Bool.not_eq_true', Bool.not_eq_false] at h1 h2
          simp only [Bool.and_eq_true, Bool.not_eq_true', Bool.not_eq_false] at h4
          refine ⟨h1, h2, ?_⟩
          by_cases hc : jsTruthy inp.challengeId = true
          · exact .inl hc
          · refine .inr ?_
            rcases Bool.eq_false_or_eq_true (jsTruthy inp.memberId) with hm | hm
            · exact hm
            · exact absurd ⟨Bool.not_eq_true _ ▸ hc, hm⟩ h4

/-- For a patch that only carries a `phases` list, `updateResource` reduces to
its transaction: the role check and the duplicate check are both skipped
because every guard tests JavaScript truthiness of absent fields, and the
merged update row equals the existing row. -/
theorem updateResource_phasesOnly (s : Store) (id : String) (pl : List String)
    (g : Nat → String) (R : Resource)
    (hfind : s.resources.find? (fun r => r.id == id) = some R) :
    updateResource s id { phases := some pl } g =
      withTransaction s (updateResourceTxBody id R pl g) := by
  simp only [updateResource, hfind, jsTruthy2, jsOr2, patchVal, Option.getD,
    Bool.false_and, Bool.or_self, Bool.false_or, Bool.and_self, if_false,
    Bool.false_eq_true, ite_false]

theorem updateResourceTxBody_empty_ok (s : Store) (id : String) (g : Nat → String)
    (R : Resource) (hres : resourcesHave s id = true)
    (hrole : rolesHave s R.roleId = true) :
    updateResourceTxBody id R [] g s =
      .ok (R, { s with resources := s.resources.map (fun x => if x.id == id then R else x) }) := by
  unfold updateResourceTxBody dbResourceUpdate
  rw [hres, hrole]
  simp

theorem updateResourceTxBody_two_ok (s : Store) (id : String) (g : Nat → String)
    (R : Resource) (X Y : String)
    (hRid : (R.id == id) = true)
    (hres : resourcesHave s id = true) (hrole : rolesHave s R.roleId = true)
    (hX : phasesHave s X = true) (hY : phasesHave s Y = true) (hXY : X ≠ Y)
    (hg : ∀ rp ∈ s.resourcePhases, rp.id ≠ g 0 ∧ rp.id ≠ g 1) (hg01 : g 0 ≠ g 1) :
    ∃ s3, updateResourceTxBody id R [X, Y] g s = .ok (R, s3) ∧
      (s3.resourcePhases.filter (fun rp => rp.resourceId == id)).map
        (fun rp => rp.phaseId) = [X, Y] := by
  have hupd : dbResourceUpdate s id R =
      .ok { s with resources := s.resources.map (fun x => if x.id == id then R else x) } := by
    unfold dbResourceUpdate
    rw [hres, hrole]
    simp
  have hres1 : resourcesHave
      { s with resources := s.resources.map (fun x => if x.id == id then R else x) } id = true := by
    unfold resourcesHave at hres ⊢
    rw [List.any_eq_true] at hres ⊢
    obtain ⟨x, hx, hxid⟩ := hres
    refine ⟨R, ?_, hRid⟩
    show R ∈ s.resources.map (fun x => if x.id == id then R else x)
    have hmm : (if (x.id == id) = true then R else x) ∈
        s.resources.map (fun y : Resource => if y.id == id then R else y) :=
      List.mem_map_of_mem _ hx
    rwa [if_pos hxid] at hmm
  have hnoid : ∀ e ∈ s.resourcePhases.filter (fun rp => rp.resourceId != id),
      (e.resourceId == id) = false ∧ e.id ≠ g 0 ∧ e.id ≠ g 1 := by
    intro e he
    have hmem := List.mem_filter.mp he
    refine ⟨?_, hg e hmem.1⟩
    have h2 := hmem.2
    simp only [bne_iff_ne, ne_eq] at h2
    simp [h2]
  have hany0 : (s.resourcePhases.filter (fun rp => rp.resourceId != id)).any
      (fun e => e.id == g 0 || (e.resourceId == id && e.phaseId == X)) = false := by
    rw [List.any_eq_false]
    intro e he
    obtain ⟨h1, h2, _⟩ := hnoid e he
    simp [h1, h2]
  have hany1 : (s.resourcePhases.filter (fun rp => rp.resourceId != id)).any
      (fun e => e.id == g 1 || (e.resourceId == id && e.phaseId == Y)) = false := by
    rw [List.any_eq_false]
    intro e he
    obtain ⟨h1, _, h3⟩ := hnoid e he
    simp [h1, h3]
  have h10 : (g 1 == g 0) = false := beq_eq_false_iff_ne.mpr (Ne.symm hg01)
  have hYX : (Y == X) = false := beq_eq_false_iff_ne.mpr (Ne.symm hXY)
  have hX2 : phasesHave
      { s with
          resources := s.resources.map (fun x => if x.id == id then R else x)
          resourcePhases := s.resourcePhases.filter (fun rp => rp.resourceId != id) } X = true := hX
  have hY2 : phasesHave
      { s with
          resources := s.resources.map (fun x => if x.id == id then R else x)
          resourcePhases := s.resourcePhases.filter (fun rp => rp.resourceId != id) } Y = true := hY
  have hres2 : resourcesHave
      { s with
          resources := s.resources.map (fun x => if x.id == id then R else x)
          resourcePhases := s.resourcePhases.filter (fun rp => rp.resourceId != id) } id = true := hres1
  have hbatch : rpBatchOk
      { s with
          resources := s.resources.map (fun x => if x.id == id then R else x)
          resourcePhases := s.resourcePhases.filter (fun rp => rp.resourceId != id) }
      (mkResourcePhaseRows id g [X, Y] 0) = true := by
    simp only [mkResourcePhaseRows, rpBatchOk, rpRowOk, List.any_cons, List.any_nil]
    rw [hany0, hany1, hres2, hX2, hY2, h10, hYX, beq_self_eq_true]
    decide
  refine ⟨{ s with
      resources := s.resources.map (fun x => if x.id == id then R else x)
      resourcePhases := (s.resourcePhases.filter (fun rp => rp.resourceId != id)) ++
        mkResourcePhaseRows id g [X, Y] 0 }, ?_, ?_⟩
  · have hcm : dbResourcePhaseCreateMany (dbResourcePhaseDeleteMany
        { roles := s.roles, phases := s.phases
          resources := s.resources.map (fun x => if x.id == id then R else x)
          resourcePhases := s.resourcePhases } id)
        (mkResourcePhaseRows id g [X, Y] 0) =
        .ok { roles := s.roles, phases := s.phases
              resources := s.resources.map (fun x => if x.id == id then R else x)
              resourcePhases := s.resourcePhases.filter (fun rp => rp.resourceId != id) ++
                mkResourcePhaseRows id g [X, Y] 0 } := by
      simp only [dbResourcePhaseDeleteMany, dbResourcePhaseCreateMany]
      rw [hbatch]
      rfl
    unfold updateResourceTxBody
    split
    · rename_i e heq
      rw [hupd] at heq
      cases heq
    · rename_i tx1 heq
      rw [hupd] at heq
      injection heq with heq
      subst heq
      rw [if_pos (by simp : ([X, Y] : List String).length > 0)]
      rw [hcm]
  · have hnil2 : (s.resourcePhases.filter (fun rp => rp.resourceId != id)).filter
        (fun rp => rp.resourceId == id) = [] := by
      rw [List.filter_eq_nil_iff]
      intro e he
      obtain ⟨h1, _, _⟩ := hnoid e he
      simp [h1]
    show ((( s.resourcePhases.filter (fun rp => rp.resourceId != id)) ++
        mkResourcePhaseRows id g [X, Y] 0).filter (fun rp => rp.resourceId == id)).map
        (fun rp => rp.phaseId) = [X, Y]
    rw [List.filter_append, hnil2]
    simp [mkResourcePhaseRows]

end Lemmas

/-- C1: `createResource` with a phases list is atomic over the store: when the
call succeeds the Resource row and a ResourcePhase row for every requested
phase id are all present in the resulting store, and when any step fails the
returned store is exactly the pre-call store, so a state with the resource
created but its phases absent is never observable. -/
theorem createResource_atomic (s : Store) (inp : ResourceInput) (newId : String)
    (g : Nat → String) :
    (match createResource s inp newId g with
     | (.ok res, s2) =>
       res ∈ s2.resources ∧
         ∀ pid ∈ inp.phases.getD [],
           ∃ rp ∈ s2.resourcePhases, rp.resourceId = res.id ∧ rp.phaseId = pid
     | (.error _, s2) => s2 = s) := by
  rcases createResource_spec s inp newId g with ⟨e, he⟩ | ⟨res, s2, heq, hmem, hrows, _⟩
  · rw [he]
  · rw [heq]
    exact ⟨hmem, hrows⟩

/-- C5 counterexample: `createResource` performs no phase-existence check
before persisting.  On a store holding the referenced role but no phases, a
create input naming phase id "p1" fails with the untranslated store-level
constraint error of the transaction, not with `NotFoundError` as the claim
states. -/
theorem createResource_missingPhase_cex :
    createResource exStoreRoleOnly exInputMissingPhase "rid1" exIdGen =
      (.error .storeConstraint, exStoreRoleOnly) ∧
      Err.storeConstraint ≠ Err.notFound := by
  exact ⟨by decide, by decide⟩

/-- C5 (amended): `createResource` does not pre-check phase existence, but a
call naming a phase id absent from the store still cannot succeed: the
ResourcePhase insert violates the foreign key, the transaction aborts, and
the store is returned in its pre-call state. -/
theorem createResource_missingPhase_fails (s : Store) (inp : ResourceInput)
    (newId : String) (g : Nat → String) (pid : String)
    (h1 : pid ∈ inp.phases.getD []) (h2 : phasesHave s pid = false) :
    ∃ e, createResource s inp newId g = (.error e, s) := by
  rcases createResource_spec s inp newId g with he | ⟨res, s2, _, _, _, hph⟩
  · exact he
  · rw [hph pid h1] at h2
    cases h2

/-- C5 witness: the amended theorem applied at a concrete store missing
phase "p1". -/
theorem createResource_missingPhase_fails_witness :
    ("p1" ∈ exInputMissingPhase.phases.getD [] ∧
      phasesHave exStoreRoleOnly "p1" = false) ∧
    ∃ e, createResource exStoreRoleOnly exInputMissingPhase "rid1" exIdGen =
      (.error e, exStoreRoleOnly) :=
  ⟨⟨by decide, by decide⟩,
    createResource_missingPhase_fails exStoreRoleOnly exInputMissingPhase "rid1"
      exIdGen "p1" (by decide) (by decide)⟩

/-- C8: a create input with neither `challengeId` nor `memberId` truthy, or
with a missing required `roleId` or `createdBy`, makes `createResource` fail
with `ValidationError`, with the same result on every store and the store
returned untouched: validation runs before any Data Store access. -/
theorem createResource_validation_precedes_store (s : Store) (inp : ResourceInput)
    (newId : String) (g : Nat → String)
    (h : (jsTruthy inp.challengeId = false ∧ jsTruthy inp.memberId = false) ∨
      inp.roleId = none ∨ inp.createdBy = none) :
    createResource s inp newId g = (.error .validation, s) := by
  have hv : validateResource inp = .error .validation := by
    rcases validateResource_cases inp with hok | herr
    · exfalso
      obtain ⟨hr, hc, hor⟩ := validateResource_ok_truthy hok
      rcases h with ⟨h1, h2⟩ | h | h
      · rcases hor with h3 | h3
        · simp [h1] at h3
        · simp [h2] at h3
      · rw [h] at hr
        exact absurd hr (by decide)
      · rw [h] at hc
        exact absurd hc (by decide)
    · exact herr
  unfold createResource
  rw [hv]

/-- C8 witness: the theorem applied to an input missing both `challengeId`
and `memberId`, on the empty store. -/
theorem createResource_validation_precedes_store_witness :
    ((jsTruthy ({ roleId := some "r1", createdBy := some "u" } : ResourceInput).challengeId = false ∧
      jsTruthy ({ roleId := some "r1", createdBy := some "u" } : ResourceInput).memberId = false) ∨
      ({ roleId := some "r1", createdBy := some "u" } : ResourceInput).roleId = none ∨
      ({ roleId := some "r1", createdBy := some "u" } : ResourceInput).createdBy = none) ∧
    createResource {} { roleId := some "r1", createdBy := some "u" } "x" exIdGen =
      (.error .validation, ({} : Store)) :=
  ⟨.inl ⟨by decide, by decide⟩,
    createResource_validation_precedes_store {} { roleId := some "r1", createdBy := some "u" }
      "x" exIdGen (.inl ⟨by decide, by decide⟩)⟩

/-- C9: `ensureRolePhasesDependency` returns successfully for an absent or
empty phase id list on every store and every role id — in particular it
raises no `NotFoundError` even when the role id does not exist, because the
role-existence lookup only runs for a non-empty list. -/
theorem ensureRolePhasesDependency_empty_ok (s : Store) (roleId : String) :
    ensureRolePhasesDependency s roleId none = .ok () ∧
      ensureRolePhasesDependency s roleId (some []) = .ok () :=
  ⟨rfl, rfl⟩

/-- C2: the uniqueness invariant on (roleId, challengeId, memberId) is NOT
preserved by `updateResource`.  On a store satisfying the invariant, patching
resource "a" with an explicit null `challengeId` skips the duplicate check
(the guard tests JavaScript truthiness) and succeeds, leaving two distinct
resources with the identical triple. -/
theorem updateResource_nullPatch_breaks_uniqueTriple :
    uniqueTriple exStorePair ∧
      (updateResource exStorePair "a" { challengeId := some none } exIdGen).1.isOk = true ∧
      ¬ uniqueTriple (updateResource exStorePair "a" { challengeId := some none } exIdGen).2 :=
  ⟨by decide, by decide, by decide⟩

/-- C3: `createResourcePhases` (addPhases) is all-or-nothing over duplicates:
for a stored resource already attached to phase A, a request list containing
A (all requested phases existing) fails with `ConflictError` and returns the
store unchanged, so no other phase in the list is added. -/
theorem createResourcePhases_allOrNothing (s : Store) (rid : String) (l : List String)
    (userId : String) (g : Nat → String) (R : Resource) (A : String)
    (hR : R ∈ s.resources) (hRid : R.id = rid) (hA : A ∈ l)
    (hatt : ∃ rp ∈ s.resourcePhases, rp.resourceId = rid ∧ rp.phaseId = A)
    (hph : ∀ pid ∈ l, ∃ p ∈ s.phases, p.id = pid) :
    createResourcePhases s rid (some l) userId g = (.error .conflict, s) := by
  obtain ⟨hd, tl, rfl⟩ : ∃ hd tl, l = hd :: tl := by
    cases l with
    | nil => cases hA
    | cons hd tl => exact ⟨hd, tl, rfl⟩
  obtain ⟨R0, hfind⟩ :=
    @exists_find?_of_mem Resource (fun r => r.id == rid) s.resources R hR (by simp [hRid])
  obtain ⟨phs, hphs⟩ := findPhases_ok hph
  obtain ⟨rp, hrp, hrid2, hpha⟩ := hatt
  have hlen : 0 < (s.resourcePhases.filter
      (fun rp => rp.resourceId == rid && (hd :: tl).contains rp.phaseId)).length := by
    apply List.length_pos.mpr
    intro hnil
    have hmem : rp ∈ s.resourcePhases.filter
        (fun rp => rp.resourceId == rid && (hd :: tl).contains rp.phaseId) := by
      apply List.mem_filter.mpr
      refine ⟨hrp, ?_⟩
      simp only [Bool.and_eq_true, beq_iff_eq]
      exact ⟨hrid2, by rw [hpha]; exact List.elem_iff.mpr hA⟩
    rw [hnil] at hmem
    cases hmem
  simp only [createResourcePhases, hfind, hphs]
  rw [if_pos hlen]

/-- C3 witness: resource "res1" is attached to "pA"; adding ["pB", "pA"]
fails with Conflict and leaves the store — hence the attached set — as it
was ("pB" not added). -/
theorem createResourcePhases_allOrNothing_witness :
    ("pA" ∈ ["pB", "pA"] ∧
      { id := "j1", resourceId := "res1", phaseId := "pA" } ∈ exStoreAttached.resourcePhases) ∧
    createResourcePhases exStoreAttached "res1" (some ["pB", "pA"]) "u" exIdGen =
      (.error .conflict, exStoreAttached) :=
  ⟨⟨by decide, by decide⟩,
    createResourcePhases_allOrNothing exStoreAttached "res1" ["pB", "pA"] "u" exIdGen
      { id := "res1", challengeId := some "c1", roleId := "r1", createdBy := "u" } "pA"
      (by decide) (by decide) (by decide)
      ⟨{ id := "j1", resourceId := "res1", phaseId := "pA" }, by decide, by decide, by decide⟩
      (by decide)⟩

/-- C4: `updateResource` with a non-empty phases list [X, Y] performs a full
replacement: whatever phase set was attached before, afterwards the resource
is attached to exactly [X, Y] — the prior associations are deleted and the
requested set recreated inside one transaction, not merged. -/
theorem updateResource_fullReplace (s : Store) (id X Y : String) (g : Nat → String)
    (R : Resource)
    (hfind : s.resources.find? (fun r => r.id == id) = some R)
    (hrole : rolesHave s R.roleId = true)
    (hX : phasesHave s X = true) (hY : phasesHave s Y = true) (hXY : X ≠ Y)
    (hg : ∀ rp ∈ s.resourcePhases, rp.id ≠ g 0 ∧ rp.id ≠ g 1) (hg01 : g 0 ≠ g 1) :
    ∃ res s2, updateResource s id { phases := some [X, Y] } g = (.ok res, s2) ∧
      (s2.resourcePhases.filter (fun rp => rp.resourceId == id)).map
        (fun rp => rp.phaseId) = [X, Y] := by
  have hRid : (R.id == id) = true := by
    have h := List.find?_some hfind
    exact h
  have hres : resourcesHave s id = true := by
    unfold resourcesHave
    rw [List.any_eq_true]
    exact ⟨R, List.mem_of_find?_eq_some hfind, hRid⟩
  obtain ⟨s3, hbody, hfil⟩ :=
    updateResourceTxBody_two_ok s id g R X Y hRid hres hrole hX hY hXY hg hg01
  rw [updateResource_phasesOnly s id [X, Y] g R hfind]
  unfold withTransaction
  rw [hbody]
  exact ⟨R, s3, rfl, hfil⟩

/-- C4 witness: resource "res1" previously attached to {"pA"} is updated with
phases ["pB", "pA"]; afterwards its attached list is exactly ["pB", "pA"]. -/
theorem updateResource_fullReplace_witness :
    (exStoreAttached.resources.find? (fun r => r.id == "res1") =
      some { id := "res1", challengeId := some "c1", roleId := "r1", createdBy := "u" }) ∧
    ∃ res s2, updateResource exStoreAttached "res1" { phases := some ["pB", "pA"] } exIdGen =
      (.ok res, s2) ∧
      (s2.resourcePhases.filter (fun rp => rp.resourceId == "res1")).map
        (fun rp => rp.phaseId) = ["pB", "pA"] :=
  ⟨by decide,
    updateResource_fullReplace exStoreAttached "res1" "pB" "pA" exIdGen
      { id := "res1", challengeId := some "c1", roleId := "r1", createdBy := "u" }
      (by decide) (by decide) (by decide) (by decide) (by decide) (by decide) (by decide)⟩

/-- C6: `deleteRole` fails with `ConflictError` and leaves the store (hence
the role) untouched whenever some Resource references the role id; when no
Resource references it, the same call succeeds and removes the role row. -/
theorem deleteRole_conflict_then_success (s : Store) (id : String) (R : Role)
    (hR : R ∈ s.roles) (hRid : R.id = id) :
    ((∃ r ∈ s.resources, r.roleId = id) → deleteRole s id = (.error .conflict, s)) ∧
    ((∀ r ∈ s.resources, r.roleId ≠ id) →
      deleteRole s id =
        (.ok (), { s with roles := s.roles.filter (fun r => r.id != id) })) := by
  obtain ⟨y, hy⟩ :=
    @exists_find?_of_mem Role (fun r => r.id == id) s.roles R hR (by simp [hRid])
  have hget : getRole s id = .ok y := by simp [getRole, hy]
  constructor
  · rintro ⟨r, hr, hrole⟩
    have hlen : 0 < (s.resources.filter (fun r => r.roleId == id)).length := by
      apply List.length_pos.mpr
      intro hnil
      have hmem : r ∈ s.resources.filter (fun r => r.roleId == id) :=
        List.mem_filter.mpr ⟨hr, by simp [hrole]⟩
      rw [hnil] at hmem
      cases hmem
    simp only [deleteRole, hget]
    rw [if_pos hlen]
  · intro hnone
    have hfil : s.resources.filter (fun r => r.roleId == id) = [] := by
      rw [List.filter_eq_nil_iff]
      intro a ha
      simp [hnone a ha]
    simp only [deleteRole, hget, hfil]
    simp [dbRoleDelete]

/-- C6 witness: deleting role "r1" fails with Conflict while resource "res1"
references it, and succeeds (removing the row) on the store without that
resource. -/
theorem deleteRole_conflict_then_success_witness :
    deleteRole exStoreReferenced "r1" = (.error .conflict, exStoreReferenced) ∧
    deleteRole exStoreRoleOnly "r1" =
      (.ok (), { exStoreRoleOnly with
        roles := exStoreRoleOnly.roles.filter (fun r => r.id != "r1") }) :=
  ⟨(deleteRole_conflict_then_success exStoreReferenced "r1"
      { id := "r1", name := "Reviewer", createdBy := "u" } (by decide) (by decide)).1
      ⟨{ id := "res1", challengeId := some "c1", roleId := "r1", createdBy := "u" },
        by decide, by decide⟩,
    (deleteRole_conflict_then_success exStoreRoleOnly "r1"
      { id := "r1", name := "Reviewer", createdBy := "u" } (by decide) (by decide)).2
      (by decide)⟩

/-- C7 counterexample: the round trip is NOT the identity on `legacyId`.
Creating a role from an input carrying `legacyId = "42"` and reading it back
yields a row whose `legacyId` is null: `createRole` never persists the
caller-supplied legacy id. -/
theorem createRole_roundtrip_cex :
    getRole (createRole {} exRoleInputLegacy "rid").2 "rid" =
      .ok { id := "rid", name := "Reviewer", fullAccess := true, selfObtainable := false,
            createdBy := "u1", updatedBy := none, legacyId := none } ∧
    exRoleInputLegacy.legacyId = some "42" ∧ (none : Option String) ≠ some "42" :=
  ⟨by decide, by decide, by decide⟩

/-- C7 (amended): `createRole` followed by `getRole` on the new id returns a
row equal to the input on name, fullAccess, selfObtainable, createdBy and
updatedBy (the fields `createRole` persists), while `legacyId` is always
stored as null regardless of the input. -/
theorem createRole_getRole_roundtrip (s : Store) (d : RoleInput) (newId : String)
    (hid : ∀ r ∈ s.roles, r.id ≠ newId) (hname : ∀ r ∈ s.roles, r.name ≠ d.name) :
    ∃ role s2, createRole s d newId = (.ok role, s2) ∧ getRole s2 newId = .ok role ∧
      role.name = d.name ∧ role.fullAccess = d.fullAccess.getD false ∧
      role.selfObtainable = d.selfObtainable.getD false ∧ role.createdBy = d.createdBy ∧
      role.updatedBy = d.updatedBy ∧ role.legacyId = none := by
  have hdb : dbRoleCreate s (buildRole d newId) =
      .ok { s with roles := s.roles ++ [buildRole d newId] } := by
    unfold dbRoleCreate
    rw [if_neg]
    intro hc
    rw [List.any_eq_true] at hc
    obtain ⟨x, hx, hor⟩ := hc
    simp only [Bool.or_eq_true, beq_iff_eq] at hor
    rcases hor with h | h
    · exact hid x hx h
    · exact hname x hx h
  have hcr : createRole s d newId =
      (.ok (buildRole d newId), { s with roles := s.roles ++ [buildRole d newId] }) := by
    unfold createRole
    rw [hdb]
  have hfindnew : ((s.roles ++ [buildRole d newId]).find? (fun r => r.id == newId)) =
      some (buildRole d newId) := by
    apply find?_append_last
    · intro x hx
      simp [hid x hx]
    · simp [buildRole]
  refine ⟨buildRole d newId, { s with roles := s.roles ++ [buildRole d newId] },
    hcr, ?_, rfl, rfl, rfl, rfl, rfl, rfl⟩
  simp [getRole, hfindnew]

/-- C7 witness: the amended round trip at a concrete input on the empty
store. -/
theorem createRole_getRole_roundtrip_witness :
    ((∀ r ∈ (({} : Store)).roles, r.id ≠ "rid") ∧
      (∀ r ∈ (({} : Store)).roles, r.name ≠ exRoleInputLegacy.name)) ∧
    ∃ role s2, createRole {} exRoleInputLegacy "rid" = (.ok role, s2) ∧
      getRole s2 "rid" = .ok role ∧
      role.name = exRoleInputLegacy.name ∧
      role.fullAccess = exRoleInputLegacy.fullAccess.getD false ∧
      role.selfObtainable = exRoleInputLegacy.selfObtainable.getD false ∧
      role.createdBy = exRoleInputLegacy.createdBy ∧
      role.updatedBy = exRoleInputLegacy.updatedBy ∧ role.legacyId = none :=
  ⟨⟨by decide, by decide⟩,
    createRole_getRole_roundtrip {} exRoleInputLegacy "rid" (by decide) (by decide)⟩

/-- C10: `updateResource` called with an explicitly empty phases list on a
resource attached to a non-empty phase set succeeds and leaves the
ResourcePhase table — hence the attached set — unchanged: the
delete-then-recreate replacement only runs for a non-empty list. -/
theorem updateResource_emptyPhases_noop (s : Store) (id : String) (g : Nat → String)
    (R : Resource)
    (hfind : s.resources.find? (fun r => r.id == id) = some R)
    (hrole : rolesHave s R.roleId = true)
    (hatt : ∃ rp ∈ s.resourcePhases, rp.resourceId = id) :
    ∃ res s2, updateResource s id { phases := some [] } g = (.ok res, s2) ∧
      s2.resourcePhases = s.resourcePhases := by
  have hRid : (R.id == id) = true := by
    have h := List.find?_some hfind
    exact h
  have hres : resourcesHave s id = true := by
    unfold resourcesHave
    rw [List.any_eq_true]
    exact ⟨R, List.mem_of_find?_eq_some hfind, hRid⟩
  rw [updateResource_phasesOnly s id [] g R hfind]
  unfold withTransaction
  rw [updateResourceTxBody_empty_ok s id g R hres hrole]
  exact ⟨R, _, rfl, rfl⟩

/-- C10 witness: resource "res1" attached to {"pA"} updated with
`{phases: []}`: the call succeeds and the join table is unchanged. -/
theorem updateResource_emptyPhases_noop_witness :
    (∃ rp ∈ exStoreAttached.resourcePhases, rp.resourceId = "res1") ∧
    ∃ res s2, updateResource exStoreAttached "res1" { phases := some [] } exIdGen =
      (.ok res, s2) ∧ s2.resourcePhases = exStoreAttached.resourcePhases :=
  ⟨⟨{ id := "j1", resourceId := "res1", phaseId := "pA" }, by decide, by decide⟩,
    updateResource_emptyPhases_noop exStoreAttached "res1" exIdGen
      { id := "res1", challengeId := some "c1", roleId := "r1", createdBy := "u" }
      (by decide) (by decide)
      ⟨{ id := "j1", resourceId := "res1", phaseId := "pA" }, by decide, by decide⟩⟩

end ResourcesApi
